import Mathlib

/-!
# alive: a per-host ICMP availability watcher

A shallow embedding of `src/alive.go` (package `alive`).

* Go `int` / `time.Duration` values are `Int`, Go `uint` values are `Nat`
  (below `2 ^ 64`); the conversion `int(u)` is written out with its wrap-around.
* A Go `error` is `Option GoError` (`none` is `nil`).
* The channel `done` carries no values: only its state (nil, open, closed) matters.
* The buffered channel `recv` is the list of queued `PacketStat`s, oldest first,
  with capacity `recvCap = 5`.
* Everything the network, the resolver, the clock and the ICMP library answer
  during one probe cycle, and the memory the runtime can obtain for the
  payload, is an input (`CycleEnv`); everything the code does to the outside
  world is logged as an `Effect`.
* The mutex `lock` and the never-used `logger` field carry no data and are
  not represented; the model is sequential.
-/

namespace alive

/-! ## Constants and library types -/

/-- Go `time.Duration`: a signed 64-bit count of nanoseconds. -/
abbrev Duration := Int

/-- Go `time.Second`. -/
def time_Second : Duration := 1000000000

/-- Go `math.MaxInt64`. -/
def math_MaxInt64 : Int := 9223372036854775807

/-- Source: `const ProtocolICMP = 1`. -/
def ProtocolICMP : Nat := 1

/-- Source: `ipv4Proto = map[string]string{"icmp": "ip4:icmp", "udp": "udp4"}`;
a missing key yields the empty string. -/
def ipv4Proto (protocol : String) : String :=
  if protocol = "icmp" then "ip4:icmp" else if protocol = "udp" then "udp4" else ""

/-- Source: `ipv6Proto = map[string]string{"icmp": "ip6:ipv6-icmp", "udp": "udp6"}`. -/
def ipv6Proto (protocol : String) : String :=
  if protocol = "icmp" then "ip6:ipv6-icmp" else if protocol = "udp" then "udp6" else ""

/-- Source: `var defaulListenAddr = "0.0.0.0"`. -/
def defaulListenAddr : String := "0.0.0.0"

/-- The conversion `int(u)` of a Go `uint` on a 64-bit platform. -/
def intOfUint (u : Nat) : Int :=
  if u % 2 ^ 64 < 2 ^ 63 then ((u % 2 ^ 64 : Nat) : Int)
  else ((u % 2 ^ 64 : Nat) : Int) - 2 ^ 64

/-- Go `net.IP`, represented by the text that `ip.String()` yields. -/
structure IP where
  text : String
deriving DecidableEq

/-- Go `net.IPAddr`. -/
structure IPAddr where
  IP : IP
  Zone : String
deriving DecidableEq

/-- Go `net.Addr` values: a `*net.IPAddr` (possibly the nil pointer), or a
`*net.UDPAddr`. -/
inductive Addr where
  | ipAddr (a : Option IPAddr)
  | udpAddr (ip : IP) (zone : String)
deriving DecidableEq

/-- Go `icmp.Type` restricted to `ipv4.ICMPType` (an `int`): the type number. -/
abbrev ICMPType := Nat

/-- Library constant `ipv4.ICMPTypeEcho` (echo request). -/
def ICMPTypeEcho : ICMPType := 8

/-- Library constant `ipv4.ICMPTypeEchoReply`. -/
def ICMPTypeEchoReply : ICMPType := 0

/-- Library constant `ipv4.ICMPTypeDestinationUnreachable`. -/
def ICMPTypeDestinationUnreachable : ICMPType := 3

/-- Library constant `ipv4.ICMPTypeTimeExceeded`. -/
def ICMPTypeTimeExceeded : ICMPType := 11

/-- Go `icmp.MessageBody`: an `*icmp.Echo` or any other body, kept raw. -/
inductive MessageBody where
  | echo (ID : Int) (Seq : Int) (Data : List Nat)
  | raw (bytes : List Nat)
deriving DecidableEq

/-- Go `icmp.Message` (the checksum is filled in by the library); the field
`Type` is written `Type_`. -/
structure Message where
  Type_ : ICMPType
  Code : Int
  Body : MessageBody
deriving DecidableEq

/-- Source: `type PacketStat struct`. -/
structure PacketStat where
  Message : Message
  Duration : Duration
deriving DecidableEq

/-- Go `error` values the package produces or passes on. -/
inductive GoError where
  /-- Go `errors.New("addr cannot be empty")` -/
  | addrEmpty
  /-- Go `fmt.Errorf("got %v; want %v", n, len(b))` -/
  | gotWant (n : Int) (want : Int)
  /-- Go `fmt.Errorf("got %+v from %v; want echo reply", rm, peer)` -/
  | wantEchoReply (rm : Message) (peer : Addr)
  /-- an error handed back by the resolver, the socket or the ICMP library -/
  | lib (msg : String)
deriving DecidableEq

/-- State of the channel `done` (`chan interface{}`, nothing is ever sent). -/
inductive Chan where
  | nil
  | opened
  | closed
deriving DecidableEq

/-- Go `close(c)`: faults (`none`) on a nil or an already closed channel. -/
def chanClose : Chan → Option Chan
  | Chan.opened => some Chan.closed
  | Chan.nil => none
  | Chan.closed => none

/-- The largest Go `int` on a 64-bit platform. -/
def maxInt : Nat := 2 ^ 63 - 1

/-- The Go runtime's `maxAlloc` on a 64-bit platform: `make` faults with
"makeslice: len out of range" beyond it. -/
def maxAlloc : Nat := 2 ^ 48

/-- Go `bytes.Repeat(b, count)`. A zero count yields the empty slice; the call
faults (`none`) on a negative count, on an output length beyond `maxInt`, and
when the output cannot be allocated: its length is beyond `maxAlloc`, or
beyond `memory`, the number of bytes the runtime can obtain for it. -/
def bytes_Repeat (memory : Nat) (b : List Nat) (count : Int) : Option (List Nat) :=
  if count = 0 then some []
  else if count < 0 then none
  else if maxInt < b.length * count.toNat then none
  else if maxAlloc < b.length * count.toNat then none
  else if memory < b.length * count.toNat then none
  else some (List.replicate count.toNat b).flatten

/-- Capacity of the result queue: `recv := make(chan *PacketStat, 5)`. -/
def recvCap : Nat := 5

/-! ## The Watcher -/

/-- Source: `type Watcher struct`. -/
structure Watcher where
  Interval : Duration
  Timeout : Duration
  ReadDeadline : Duration
  Size : Nat
  Source : String
  done : Chan
  ipaddr : Option IPAddr
  addr : String
  ipv4 : Bool
  id : Int
  sequence : Int
  network : String
  protocol : String
  TTL : Int
deriving DecidableEq

/-- What the code does to the outside world, in order. -/
inductive Effect where
  /-- Go `net.ResolveIPAddr(network, addr)` -/
  | resolveIPAddr (network : String) (addr : String)
  /-- Go `icmp.ListenPacket(network, address)` -/
  | listenPacket (network : String) (address : String)
  /-- Go `time.NewTicker(d)` -/
  | newTicker (d : Duration)
  /-- Go `ticker.Stop()` in the deferred function of `run` -/
  | tickerStop
  /-- Go `close(recv)` in the deferred function of `run` -/
  | closeRecv
  /-- Go `close(w.done)` -/
  | closeDone
  /-- Go `m.Marshal(nil)` -/
  | marshal (m : Message)
  /-- Go `conn.WriteTo(b, dst)` -/
  | writeTo (b : List Nat) (dst : Addr)
  /-- Go `conn.SetReadDeadline(time.Now().Add(d))` -/
  | setReadDeadline (d : Duration)
  /-- Go `conn.ReadFrom(reply)` -/
  | readFrom
  /-- Go `icmp.ParseMessage(ProtocolICMP, reply[:n])` and what it returned -/
  | parseMessage (proto : Nat) (rm : Option Message)
  /-- Go `recv <- &PacketStat{rm, duration}` completed -/
  | enqueue (ps : PacketStat)
  /-- Go `w.OnTimeout()` -/
  | onTimeout
  /-- Go `w.OnRecv(ps)` -/
  | onRecv (ps : PacketStat)
  /-- Go `w.OnError(err)` -/
  | onError (err : GoError)
deriving DecidableEq

/-- Is the effect an invocation of one of the three callbacks? -/
def Effect.isCallback : Effect → Bool
  | Effect.onTimeout => true
  | Effect.onRecv _ => true
  | Effect.onError _ => true
  | _ => false

/-- Source: `func New(addr string, logger *log.Logger) *Watcher`.
`rnd` is the value drawn by `rand.Intn(math.MaxInt64)`; `ReadDeadline` and
`sequence` are not listed in the literal and take Go's zero value. -/
def New (addr : String) (rnd : Int) : Watcher :=
  { Interval := time_Second
    Timeout := math_MaxInt64
    ReadDeadline := 0
    Size := 0
    Source := defaulListenAddr
    addr := addr
    done := Chan.opened
    id := rnd
    sequence := 0
    ipaddr := none
    ipv4 := false
    network := "ip"
    protocol := "udp"
    TTL := 64 }

/-- Source: `func (w *Watcher) SetSource(source string)`. -/
def SetSource (w : Watcher) (source : String) : Watcher :=
  { w with Source := source }

/-- Source: `func (w *Watcher) SetTimeout(timeout time.Duration)`. -/
def SetTimeout (w : Watcher) (timeout : Duration) : Watcher :=
  { w with Timeout := timeout }

/-- Source: `func (w *Watcher) SetReadDeadline(deadline time.Duration)`. -/
def SetReadDeadline (w : Watcher) (deadline : Duration) : Watcher :=
  { w with ReadDeadline := deadline }

/-- Source: `func (w *Watcher) SetInterval(interval time.Duration)`. -/
def SetInterval (w : Watcher) (interval : Duration) : Watcher :=
  { w with Interval := interval }

/-- Source: `func (w *Watcher) SetTTL(ttl uint)`: `w.TTL = int(ttl)`. -/
def SetTTL (w : Watcher) (ttl : Nat) : Watcher :=
  { w with TTL := intOfUint ttl }

/-- Source: `func (w *Watcher) SetSize(size uint)`. -/
def SetSize (w : Watcher) (size : Nat) : Watcher :=
  { w with Size := size }

/-- Source: `func (w *Watcher) SetPrivileged(privileged bool)`. -/
def SetPrivileged (w : Watcher) (privileged : Bool) : Watcher :=
  if privileged then { w with protocol := "icmp" } else { w with protocol := "udp" }

/-- Source: `func isIPv4(ip net.IP) bool`: `strings.Contains(ip.String(), ".")`. -/
def isIPv4 (ip : IP) : Bool :=
  ip.text.toList.contains '.'

/-- How a call ended. -/
inductive Outcome where
  /-- the call returned this `error` (`none` is `nil`) -/
  | returned (err : Option GoError)
  /-- the call faulted (a Go run-time panic) -/
  | panicked
  /-- the call is blocked sending on the full result queue -/
  | blocked
  /-- the scheduler loop is still waiting in its `select` -/
  | running
  /-- the listed event was not ready, so the `select` could not take it -/
  | notReady
deriving DecidableEq

/-- Result of a method call: the Watcher afterwards, the effects performed
during the call, and how the call ended. -/
structure Res where
  w : Watcher
  effects : List Effect
  out : Outcome
deriving DecidableEq

/-- Source: `func (w *Watcher) Resolve() error`. `lookup` is what
`net.ResolveIPAddr(w.network, w.addr)` answers if it is called. -/
def Resolve (w : Watcher) (lookup : GoError ⊕ IPAddr) : Res :=
  if w.addr.utf8ByteSize = 0 then
    { w := w, effects := [], out := Outcome.returned (some GoError.addrEmpty) }
  else
    match lookup with
    | Sum.inl err =>
      { w := w, effects := [Effect.resolveIPAddr w.network w.addr],
        out := Outcome.returned (some err) }
    | Sum.inr ipaddr =>
      { w := { w with ipv4 := isIPv4 ipaddr.IP, ipaddr := some ipaddr },
        effects := [Effect.resolveIPAddr w.network w.addr],
        out := Outcome.returned none }

/-- The value of the local `open` after the `select` in `Stop`: the receive
`_, open = <-w.done` is ready only on a closed channel and then yields
`false`; otherwise the `default` branch runs and `open` keeps `true`. -/
def Stop_open (w : Watcher) : Bool :=
  match w.done with
  | Chan.closed => false
  | Chan.opened => true
  | Chan.nil => true

/-- Source: `func (w *Watcher) Stop()`. -/
def Stop (w : Watcher) : Res :=
  if Stop_open w then
    match chanClose w.done with
    | some c => { w := { w with done := c }, effects := [Effect.closeDone],
                  out := Outcome.returned none }
    | none => { w := w, effects := [], out := Outcome.panicked }
  else
    { w := w, effects := [], out := Outcome.returned none }

/-! ## The probe cycle -/

/-- Answers of the outside world during one probe cycle, each used only if
the cycle gets as far as asking. -/
structure CycleEnv where
  /-- the number of bytes the runtime can obtain for the payload -/
  memory : Nat
  /-- what `m.Marshal(nil)` returns: an error or the bytes `b` -/
  marshal : GoError ⊕ List Nat
  /-- what `conn.WriteTo(b, dst)` returns: `(n, err)` -/
  writeTo : Int × Option GoError
  /-- what `conn.SetReadDeadline(...)` returns -/
  setReadDeadline : Option GoError
  /-- what `conn.ReadFrom(reply)` returns: `(n, peer, err)` -/
  readFrom : Int × Addr × Option GoError
  /-- the value of `time.Since(start)` -/
  duration : Duration
  /-- what `icmp.ParseMessage(ProtocolICMP, reply[:n])` returns -/
  parseMessage : GoError ⊕ Message

/-- Result of a probe cycle or of the scheduler loop: the Watcher, the result
queue `recv`, the effects performed, and how the call ended. -/
structure LoopRes where
  w : Watcher
  recv : List PacketStat
  effects : List Effect
  out : Outcome
deriving DecidableEq

/-- The local `dst` of `sendRecvICMP` (source lines 245-248); `none` is the
nil-pointer fault of `w.ipaddr.IP` on an unresolved Watcher. -/
def sendRecvICMP_dst (w : Watcher) : Option Addr :=
  if w.protocol = "udp" then
    match w.ipaddr with
    | none => none
    | some a => some (Addr.udpAddr a.IP a.Zone)
  else some (Addr.ipAddr w.ipaddr)

/-- The local `m` of `sendRecvICMP` (source lines 251-259), the echo request;
`none` is a fault of `bytes.Repeat([]byte("a"), int(w.Size))`. -/
def sendRecvICMP_m (w : Watcher) (memory : Nat) : Option Message :=
  match bytes_Repeat memory [97] (intOfUint w.Size) with
  | none => none
  | some data =>
    some { Type_ := ICMPTypeEcho, Code := 0,
           Body := MessageBody.echo w.id w.sequence data }

/-- Source: `func (w *Watcher) sendRecvICMP(conn *icmp.PacketConn, recv chan *PacketStat) error`. -/
def sendRecvICMP (w : Watcher) (recv : List PacketStat) (env : CycleEnv) : LoopRes :=
  match sendRecvICMP_dst w with
  | none => { w := w, recv := recv, effects := [], out := Outcome.panicked }
  | some dst =>
  match sendRecvICMP_m w env.memory with
  | none => { w := w, recv := recv, effects := [], out := Outcome.panicked }
  | some m =>
  match env.marshal with
  | Sum.inl err =>
    { w := w, recv := recv, effects := [Effect.marshal m],
      out := Outcome.returned (some err) }
  | Sum.inr b =>
  match env.writeTo with
  | (_, some err) =>
    { w := w, recv := recv, effects := [Effect.marshal m, Effect.writeTo b dst],
      out := Outcome.returned (some err) }
  | (n, none) =>
  if n ≠ (b.length : Int) then
    { w := w, recv := recv, effects := [Effect.marshal m, Effect.writeTo b dst],
      out := Outcome.returned (some (GoError.gotWant n b.length)) }
  else
  match env.setReadDeadline with
  | some err =>
    { w := w, recv := recv,
      effects := [Effect.marshal m, Effect.writeTo b dst,
                  Effect.setReadDeadline w.ReadDeadline],
      out := Outcome.returned (some err) }
  | none =>
  match env.readFrom with
  | (_, _, some err) =>
    { w := w, recv := recv,
      effects := [Effect.marshal m, Effect.writeTo b dst,
                  Effect.setReadDeadline w.ReadDeadline, Effect.readFrom],
      out := Outcome.returned (some err) }
  | (_, peer, none) =>
  match env.parseMessage with
  | Sum.inl err =>
    { w := w, recv := recv,
      effects := [Effect.marshal m, Effect.writeTo b dst,
                  Effect.setReadDeadline w.ReadDeadline, Effect.readFrom,
                  Effect.parseMessage ProtocolICMP none],
      out := Outcome.returned (some err) }
  | Sum.inr rm =>
  if rm.Type_ = ICMPTypeEchoReply then
    if recv.length < recvCap then
      { w := w, recv := recv ++ [{ Message := rm, Duration := env.duration }],
        effects := [Effect.marshal m, Effect.writeTo b dst,
                    Effect.setReadDeadline w.ReadDeadline, Effect.readFrom,
                    Effect.parseMessage ProtocolICMP (some rm),
                    Effect.enqueue { Message := rm, Duration := env.duration }],
        out := Outcome.returned none }
    else
      { w := w, recv := recv,
        effects := [Effect.marshal m, Effect.writeTo b dst,
                    Effect.setReadDeadline w.ReadDeadline, Effect.readFrom,
                    Effect.parseMessage ProtocolICMP (some rm)],
        out := Outcome.blocked }
  else
    { w := w, recv := recv,
      effects := [Effect.marshal m, Effect.writeTo b dst,
                  Effect.setReadDeadline w.ReadDeadline, Effect.readFrom,
                  Effect.parseMessage ProtocolICMP (some rm)],
      out := Outcome.returned (some (GoError.wantEchoReply rm peer)) }

/-! ## The scheduler loop -/

/-- One entry of a schedule of the scheduler loop: the case its `select`
takes in one iteration, or a call of `Stop` by another goroutine between two
iterations. -/
inductive Event where
  /-- another goroutine calls `w.Stop()` -/
  | stopCalled
  /-- the select takes `case <-w.done` -/
  | done
  /-- the select takes `case <-timeout.C` -/
  | timeout
  /-- the select takes `case <-interval.C`; `env` answers the probe cycle -/
  | interval (env : CycleEnv)
  /-- the select takes `case msg := <-recv` -/
  | recv

/-- One iteration of the `for { select { ... } }` of `run` on the state `s`
(whose `effects` is the log so far). A receive on `w.done` is ready only once
the channel is closed, a receive on `recv` only when the queue is not empty;
the two tickers may be ready at any iteration. A fault of the probe cycle
unwinds `run`, whose deferred function stops the tickers and closes `recv`. -/
def loopStep (s : LoopRes) : Event → LoopRes
  | Event.stopCalled =>
    let r := Stop s.w
    match r.out with
    | Outcome.panicked => { s with w := r.w, effects := s.effects ++ r.effects,
                                   out := Outcome.panicked }
    | _ => { s with w := r.w, effects := s.effects ++ r.effects, out := Outcome.running }
  | Event.done =>
    if s.w.done = Chan.closed then
      { s with effects := s.effects ++ [Effect.tickerStop, Effect.tickerStop, Effect.closeRecv],
               out := Outcome.returned none }
    else { s with out := Outcome.notReady }
  | Event.timeout =>
    { s with effects := s.effects ++ [Effect.onTimeout], out := Outcome.running }
  | Event.interval env =>
    let r := sendRecvICMP s.w s.recv env
    match r.out with
    | Outcome.returned (some err) =>
      { w := r.w, recv := r.recv, effects := s.effects ++ r.effects ++ [Effect.onError err],
        out := Outcome.running }
    | Outcome.returned none =>
      { w := r.w, recv := r.recv, effects := s.effects ++ r.effects, out := Outcome.running }
    | Outcome.panicked =>
      { w := r.w, recv := r.recv,
        effects := s.effects ++ r.effects
          ++ [Effect.tickerStop, Effect.tickerStop, Effect.closeRecv],
        out := Outcome.panicked }
    | o => { w := r.w, recv := r.recv, effects := s.effects ++ r.effects, out := o }
  | Event.recv =>
    match s.recv with
    | [] => { s with out := Outcome.notReady }
    | msg :: rest =>
      { s with recv := rest, effects := s.effects ++ [Effect.onRecv msg],
               out := Outcome.running }

/-- The `for` loop of `run` driven by a schedule: it goes on while the state
is `running`; the first other outcome ends it and later entries are not
looked at. -/
def loop (s : LoopRes) : List Event → LoopRes
  | [] => s
  | e :: es =>
    match s.out with
    | Outcome.running => loop (loopStep s e) es
    | _ => s

/-- Source: `func (w *Watcher) run(conn *icmp.PacketConn) error`.
`time.NewTicker` faults on a non-positive duration. -/
def run (w : Watcher) (events : List Event) : LoopRes :=
  if w.Timeout ≤ 0 then
    { w := w, recv := [], effects := [], out := Outcome.panicked }
  else if w.Interval ≤ 0 then
    { w := w, recv := [], effects := [Effect.newTicker w.Timeout], out := Outcome.panicked }
  else
    loop { w := w, recv := [],
           effects := [Effect.newTicker w.Timeout, Effect.newTicker w.Interval],
           out := Outcome.running } events

/-- Source: `func (w *Watcher) listen() (*icmp.PacketConn, error)`; `answer`
is the error `icmp.ListenPacket` returns (`none`: the connection is open). -/
def listen (w : Watcher) (answer : Option GoError) : Res :=
  let call := Effect.listenPacket
    (if w.ipv4 then ipv4Proto w.protocol else ipv6Proto w.protocol) w.Source
  match answer with
  | some err =>
    let r := Stop w
    match r.out with
    | Outcome.panicked => { w := r.w, effects := call :: r.effects, out := Outcome.panicked }
    | _ => { w := r.w, effects := call :: r.effects, out := Outcome.returned (some err) }
  | none => { w := w, effects := [call], out := Outcome.returned none }

/-- Answers of the outside world during one call of `Run`. -/
structure RunEnv where
  /-- what `net.ResolveIPAddr` answers -/
  lookup : GoError ⊕ IPAddr
  /-- what `icmp.ListenPacket` answers -/
  listen : Option GoError
  /-- the schedule of the scheduler loop -/
  events : List Event

/-- Source: `func (w *Watcher) Run() error`. -/
def Run (w : Watcher) (env : RunEnv) : LoopRes :=
  let r1 : Res :=
    if w.ipaddr = none then Resolve w env.lookup
    else { w := w, effects := [], out := Outcome.returned none }
  match r1.out with
  | Outcome.returned none =>
    let r2 := listen r1.w env.listen
    match r2.out with
    | Outcome.returned none =>
      let r3 := run r2.w env.events
      { r3 with effects := r1.effects ++ r2.effects ++ r3.effects }
    | o => { w := r2.w, recv := [], effects := r1.effects ++ r2.effects, out := o }
  | o => { w := r1.w, recv := [], effects := r1.effects, out := o }

/-! ## Sequences of calls -/

/-- Calling `Stop` `n` times in a row on the same Watcher; the effects add up
and a fault ends the sequence. -/
def StopTimes : Nat → Watcher → Res
  | 0, w => { w := w, effects := [], out := Outcome.returned none }
  | n + 1, w =>
    let r := StopTimes n w
    match r.out with
    | Outcome.returned none =>
      let r2 := Stop r.w
      { w := r2.w, effects := r.effects ++ r2.effects, out := r2.out }
    | _ => r

/-- One operation on a Watcher together with the answers of the outside
world it needs. -/
inductive Op where
  | SetSource (source : String)
  | SetTimeout (timeout : Duration)
  | SetReadDeadline (deadline : Duration)
  | SetInterval (interval : Duration)
  | SetTTL (ttl : Nat)
  | SetSize (size : Nat)
  | SetPrivileged (privileged : Bool)
  | Resolve (lookup : GoError ⊕ IPAddr)
  | Stop
  | listen (answer : Option GoError)
  | sendRecvICMP (recv : List PacketStat) (env : CycleEnv)
  | run (events : List Event)
  | Run (env : RunEnv)

/-- The Watcher after the operation and the effects the operation performed. -/
def Op.exec (w : Watcher) : Op → Watcher × List Effect
  | Op.SetSource source => (alive.SetSource w source, [])
  | Op.SetTimeout timeout => (alive.SetTimeout w timeout, [])
  | Op.SetReadDeadline deadline => (alive.SetReadDeadline w deadline, [])
  | Op.SetInterval interval => (alive.SetInterval w interval, [])
  | Op.SetTTL ttl => (alive.SetTTL w ttl, [])
  | Op.SetSize size => (alive.SetSize w size, [])
  | Op.SetPrivileged privileged => (alive.SetPrivileged w privileged, [])
  | Op.Resolve lookup => ((alive.Resolve w lookup).w, (alive.Resolve w lookup).effects)
  | Op.Stop => ((alive.Stop w).w, (alive.Stop w).effects)
  | Op.listen answer => ((alive.listen w answer).w, (alive.listen w answer).effects)
  | Op.sendRecvICMP recv env =>
    ((alive.sendRecvICMP w recv env).w, (alive.sendRecvICMP w recv env).effects)
  | Op.run events => ((alive.run w events).w, (alive.run w events).effects)
  | Op.Run env => ((alive.Run w env).w, (alive.Run w env).effects)

/-- A lifetime of a Watcher: operations applied one after the other. -/
def lifetime (w : Watcher) : List Op → Watcher × List Effect
  | [] => (w, [])
  | op :: ops =>
    ((lifetime (Op.exec w op).1 ops).1, (Op.exec w op).2 ++ (lifetime (Op.exec w op).1 ops).2)

/-- Effects that `run`, `Stop` or `listen` perform themselves, outside the
probe cycle and the resolver. -/
def Effect.ownedByLoop : Effect → Bool
  | Effect.listenPacket _ _ => true
  | Effect.newTicker _ => true
  | Effect.tickerStop => true
  | Effect.closeRecv => true
  | Effect.closeDone => true
  | Effect.onTimeout => true
  | Effect.onRecv _ => true
  | Effect.onError _ => true
  | _ => false

/-- Is the effect a call of the resolver? -/
def Effect.isResolve : Effect → Bool
  | Effect.resolveIPAddr _ _ => true
  | _ => false

/-- The echo request in the effect, if the effect is a `Marshal` call, carries
identifier `a` and sequence `b`. -/
def Effect.tagged (a b : Int) (x : Effect) : Prop :=
  ∀ m, x = Effect.marshal m → ∃ data, m.Body = MessageBody.echo a b data

/-! ## Sample inputs -/

/-- A resolved IPv4 target. -/
def sampleAddr : IPAddr := { IP := { text := "192.0.2.1" }, Zone := "" }

/-- The Watcher `New("example.org")` with identifier 7 after a successful
`Resolve`, with a read deadline of three seconds. -/
def sampleWatcher : Watcher :=
  SetReadDeadline (Resolve (New "example.org" 7) (Sum.inr sampleAddr)).w 3000000000

/-- An echo reply carrying the identifier `id`. -/
def sampleReply (id : Int) : Message :=
  { Type_ := ICMPTypeEchoReply, Code := 0, Body := MessageBody.echo id 0 [] }

/-- A probe cycle in which everything succeeds and the message `rm` comes
back after one and a half seconds. -/
def sampleEnv (rm : Message) : CycleEnv :=
  { memory := 1073741824
    marshal := Sum.inr [8, 0, 247, 248, 0, 7, 0, 0]
    writeTo := (8, none)
    setReadDeadline := none
    readFrom := (8, Addr.udpAddr sampleAddr.IP "", none)
    duration := 1500000000
    parseMessage := Sum.inr rm }

/-- A probe cycle of a Watcher with `Size = 32`: the marshalled request has
forty bytes, all of them are written, and the echo reply comes back. -/
def sampleEnv32 : CycleEnv :=
  { memory := 1073741824
    marshal := Sum.inr ([8, 0, 225, 226, 0, 7, 0, 0] ++ List.replicate 32 97)
    writeTo := (40, none)
    setReadDeadline := none
    readFrom := (40, Addr.udpAddr sampleAddr.IP "", none)
    duration := 1500000000
    parseMessage := Sum.inr
      { Type_ := ICMPTypeEchoReply, Code := 0,
        Body := MessageBody.echo 7 0 (List.replicate 32 97) } }

/-- A probe cycle whose read times out. -/
def timeoutEnv : CycleEnv :=
  { memory := 1073741824
    marshal := Sum.inr [8, 0, 247, 248, 0, 7, 0, 0]
    writeTo := (8, none)
    setReadDeadline := none
    readFrom := (0, Addr.ipAddr none, some (GoError.lib "i/o timeout"))
    duration := 3000000000
    parseMessage := Sum.inl (GoError.lib "message too short") }

/-- A Destination Unreachable message. -/
def sampleUnreachable : Message :=
  { Type_ := ICMPTypeDestinationUnreachable, Code := 1, Body := MessageBody.raw [0, 0, 0, 0] }

/-- A result queue that already holds five results. -/
def fullQueue : List PacketStat :=
  List.replicate 5 { Message := sampleReply 7, Duration := 1500000000 }

/-- A schedule of `n` interval ticks in a row, each probe cycle receiving an
echo reply after one and a half seconds (longer than the interval of one
second, so the next tick is ready when the cycle is over). -/
def ticks (n : Nat) : List Event :=
  List.replicate n (Event.interval (sampleEnv (sampleReply 7)))

/-- A short lifetime: resolve, enlarge the payload, run two probe cycles, stop. -/
def sampleLifetime : List Op :=
  [Op.Resolve (Sum.inr sampleAddr), Op.SetSize 2,
   Op.Run { lookup := Sum.inr sampleAddr, listen := none,
            events := [Event.interval (sampleEnv (sampleReply 7)), Event.recv,
                       Event.interval timeoutEnv] },
   Op.Stop]

/-! ## Basic facts -/

theorem Stop_w (w : Watcher) (h : w.done ≠ Chan.nil) :
    Stop w = { w := { w with done := Chan.closed },
               effects := if w.done = Chan.opened then [Effect.closeDone] else [],
               out := Outcome.returned none } := by
  cases w with
  | mk i t r sz src d ip ad v4 id sq nw pr ttl =>
    cases d <;> simp_all [Stop, Stop_open, chanClose]

theorem Stop_id_sequence (w : Watcher) :
    (Stop w).w.id = w.id ∧ (Stop w).w.sequence = w.sequence := by
  unfold Stop
  repeat' split
  all_goals simp

theorem Stop_effects (w : Watcher) : ∀ x ∈ (Stop w).effects, x = Effect.closeDone := by
  unfold Stop
  repeat' split
  all_goals simp

theorem Resolve_id_sequence (w : Watcher) (lookup : GoError ⊕ IPAddr) :
    (Resolve w lookup).w.id = w.id ∧ (Resolve w lookup).w.sequence = w.sequence := by
  unfold Resolve
  repeat' split
  all_goals simp

theorem Resolve_effects (w : Watcher) (lookup : GoError ⊕ IPAddr) :
    ∀ x ∈ (Resolve w lookup).effects, x = Effect.resolveIPAddr w.network w.addr := by
  unfold Resolve
  repeat' split
  all_goals simp

theorem sendRecvICMP_w (w : Watcher) (q : List PacketStat) (env : CycleEnv) :
    (sendRecvICMP w q env).w = w := by
  unfold sendRecvICMP
  repeat' split
  all_goals rfl

theorem sendRecvICMP_no_callback (w : Watcher) (q : List PacketStat) (env : CycleEnv) :
    ∀ x ∈ (sendRecvICMP w q env).effects,
      x.isCallback = false ∧ x.isResolve = false ∧ x.ownedByLoop = false := by
  unfold sendRecvICMP
  repeat' split
  all_goals simp [Effect.isCallback, Effect.isResolve, Effect.ownedByLoop]

theorem sendRecvICMP_marshal (w : Watcher) (q : List PacketStat) (env : CycleEnv)
    (m : Message) (h : Effect.marshal m ∈ (sendRecvICMP w q env).effects) :
    sendRecvICMP_m w env.memory = some m := by
  unfold sendRecvICMP at h
  repeat' split at h
  all_goals simp_all

theorem sendRecvICMP_out (w : Watcher) (q : List PacketStat) (env : CycleEnv) :
    (sendRecvICMP w q env).out ≠ Outcome.running
      ∧ (sendRecvICMP w q env).out ≠ Outcome.notReady := by
  unfold sendRecvICMP
  repeat' split
  all_goals simp

theorem sendRecvICMP_m_body (w : Watcher) (memory : Nat) (m : Message)
    (h : sendRecvICMP_m w memory = some m) :
    ∃ data, m = { Type_ := ICMPTypeEcho, Code := 0,
                  Body := MessageBody.echo w.id w.sequence data } := by
  unfold sendRecvICMP_m at h
  split at h
  · simp at h
  · rename_i data _
    exact ⟨data, by simpa using h.symm⟩

theorem loop_of_not_running (s : LoopRes) (h : s.out ≠ Outcome.running) (events : List Event) :
    loop s events = s := by
  cases events with
  | nil => rfl
  | cons e es =>
    unfold loop
    split
    · rename_i hr
      exact absurd hr h
    · rfl

theorem loop_cons_running (s : LoopRes) (h : s.out = Outcome.running) (e : Event)
    (es : List Event) : loop s (e :: es) = loop (loopStep s e) es := by
  simp [loop, h]

theorem loop_append (events : List Event) : ∀ (s : LoopRes) (more : List Event),
    loop s (events ++ more) = loop (loop s events) more := by
  induction events with
  | nil => intro s more; rfl
  | cons e es ih =>
    intro s more
    by_cases h : s.out = Outcome.running
    · rw [List.cons_append, loop_cons_running s h, loop_cons_running s h, ih]
    · rw [loop_of_not_running s h, loop_of_not_running s h, loop_of_not_running s h]

theorem sendRecvICMP_error_recv (w : Watcher) (q : List PacketStat) (env : CycleEnv)
    (h : (sendRecvICMP w q env).out ≠ Outcome.returned none) :
    (sendRecvICMP w q env).recv = q ∧ ∀ ps, Effect.enqueue ps ∉ (sendRecvICMP w q env).effects := by
  unfold sendRecvICMP at h ⊢
  repeat' split
  all_goals simp_all

theorem loopStep_stopCalled (s : LoopRes) :
    loopStep s Event.stopCalled
      = match (Stop s.w).out with
        | Outcome.panicked => { s with w := (Stop s.w).w, effects := s.effects ++ (Stop s.w).effects,
                                       out := Outcome.panicked }
        | _ => { s with w := (Stop s.w).w, effects := s.effects ++ (Stop s.w).effects,
                        out := Outcome.running } := rfl

theorem loopStep_done (s : LoopRes) :
    loopStep s Event.done
      = if s.w.done = Chan.closed then
          { s with effects := s.effects ++ [Effect.tickerStop, Effect.tickerStop, Effect.closeRecv],
                   out := Outcome.returned none }
        else { s with out := Outcome.notReady } := rfl

theorem loopStep_timeout (s : LoopRes) :
    loopStep s Event.timeout
      = { s with effects := s.effects ++ [Effect.onTimeout], out := Outcome.running } := rfl

theorem loopStep_interval (s : LoopRes) (env : CycleEnv) :
    loopStep s (Event.interval env)
      = match (sendRecvICMP s.w s.recv env).out with
        | Outcome.returned (some err) =>
          { w := (sendRecvICMP s.w s.recv env).w, recv := (sendRecvICMP s.w s.recv env).recv,
            effects := s.effects ++ (sendRecvICMP s.w s.recv env).effects ++ [Effect.onError err],
            out := Outcome.running }
        | Outcome.returned none =>
          { w := (sendRecvICMP s.w s.recv env).w, recv := (sendRecvICMP s.w s.recv env).recv,
            effects := s.effects ++ (sendRecvICMP s.w s.recv env).effects,
            out := Outcome.running }
        | Outcome.panicked =>
          { w := (sendRecvICMP s.w s.recv env).w, recv := (sendRecvICMP s.w s.recv env).recv,
            effects := s.effects ++ (sendRecvICMP s.w s.recv env).effects
              ++ [Effect.tickerStop, Effect.tickerStop, Effect.closeRecv],
            out := Outcome.panicked }
        | o =>
          { w := (sendRecvICMP s.w s.recv env).w, recv := (sendRecvICMP s.w s.recv env).recv,
            effects := s.effects ++ (sendRecvICMP s.w s.recv env).effects, out := o } := rfl

theorem loopStep_recv (s : LoopRes) :
    loopStep s Event.recv
      = match s.recv with
        | [] => { s with out := Outcome.notReady }
        | msg :: rest =>
          { s with recv := rest, effects := s.effects ++ [Effect.onRecv msg],
                   out := Outcome.running } := rfl

theorem loopStep_returned (s : LoopRes) (e : Event) (err : Option GoError)
    (h : (loopStep s e).out = Outcome.returned err) :
    e = Event.done ∧ err = none ∧ s.w.done = Chan.closed := by
  cases e with
  | stopCalled =>
    rw [loopStep_stopCalled] at h
    split at h <;> simp at h
  | done =>
    rw [loopStep_done] at h
    split at h
    · rename_i hc
      simp at h
      exact ⟨rfl, h.symm, hc⟩
    · simp at h
  | timeout =>
    rw [loopStep_timeout] at h
    simp at h
  | interval env =>
    rw [loopStep_interval] at h
    split at h
    · simp at h
    · simp at h
    · simp at h
    · rename_i o h1 h2 h3
      simp only at h
      cases err with
      | none => exact absurd h h2
      | some x => exact absurd h (h1 x)
  | recv =>
    rw [loopStep_recv] at h
    split at h <;> simp at h

theorem loop_returned (events : List Event) : ∀ (s : LoopRes) (err : Option GoError),
    s.out = Outcome.running → (loop s events).out = Outcome.returned err →
    err = none ∧ ∃ pre post, events = pre ++ Event.done :: post
      ∧ (loop s pre).out = Outcome.running ∧ (loop s pre).w.done = Chan.closed
      ∧ loop s events = loopStep (loop s pre) Event.done := by
  induction events with
  | nil =>
    intro s err hs h
    simp [loop, hs] at h
  | cons e es ih =>
    intro s err hs h
    rw [loop_cons_running s hs] at h
    by_cases hr : (loopStep s e).out = Outcome.running
    · obtain ⟨herr, pre, post, hev, hrun, hdone, heq⟩ := ih (loopStep s e) err hr h
      refine ⟨herr, e :: pre, post, by rw [hev]; rfl, ?_, ?_, ?_⟩
      · rw [loop_cons_running s hs]; exact hrun
      · rw [loop_cons_running s hs]; exact hdone
      · rw [loop_cons_running s hs, loop_cons_running s hs]; exact heq
    · rw [loop_of_not_running _ hr] at h
      obtain ⟨he, herr, hdone⟩ := loopStep_returned s e err h
      refine ⟨herr, [], es, by rw [he]; rfl, hs, hdone, ?_⟩
      rw [loop_cons_running s hs, loop_of_not_running _ hr, he]
      rfl

theorem loop_snoc (s : LoopRes) (pre : List Event) (e : Event)
    (h : (loop s pre).out = Outcome.running) :
    loop s (pre ++ [e]) = loopStep (loop s pre) e := by
  rw [loop_append, loop_cons_running _ h]
  rfl

theorem run_running (w : Watcher) (pre : List Event) (h : (run w pre).out = Outcome.running) :
    run w pre = loop { w := w, recv := [],
                       effects := [Effect.newTicker w.Timeout, Effect.newTicker w.Interval],
                       out := Outcome.running } pre := by
  unfold run at h ⊢
  split
  · rename_i ht
    simp [ht] at h
  · split
    · rename_i ht hi
      simp [ht, hi] at h
    · rfl

theorem run_snoc (w : Watcher) (pre : List Event) (e : Event)
    (h : (run w pre).out = Outcome.running) :
    run w (pre ++ [e]) = loopStep (run w pre) e := by
  have hp := run_running w pre h
  rw [hp] at h
  rw [hp, ← loop_snoc _ pre e h]
  unfold run at hp ⊢
  split
  · rename_i ht
    rw [if_pos ht] at hp
    rw [← hp] at h
    simp at h
  · rename_i ht
    split
    · rename_i hi
      rw [if_neg ht, if_pos hi] at hp
      rw [← hp] at h
      simp at h
    · rfl

theorem loop_induct (P : LoopRes → Prop) (hstep : ∀ s e, P s → P (loopStep s e))
    (events : List Event) : ∀ s, P s → P (loop s events) := by
  induction events with
  | nil => intro s hs; exact hs
  | cons e es ih =>
    intro s hs
    by_cases h : s.out = Outcome.running
    · rw [loop_cons_running s h]
      exact ih _ (hstep s e hs)
    · rw [loop_of_not_running s h]
      exact hs

theorem run_induct (P : LoopRes → Prop) (hstep : ∀ s e, P s → P (loopStep s e))
    (w : Watcher)
    (h0 : P { w := w, recv := [], effects := [], out := Outcome.panicked })
    (h1 : P { w := w, recv := [], effects := [Effect.newTicker w.Timeout],
              out := Outcome.panicked })
    (h2 : P { w := w, recv := [],
              effects := [Effect.newTicker w.Timeout, Effect.newTicker w.Interval],
              out := Outcome.running })
    (events : List Event) : P (run w events) := by
  unfold run
  split
  · exact h0
  · split
    · exact h1
    · exact loop_induct P hstep events _ h2

theorem sendRecvICMP_recv_le (w : Watcher) (q : List PacketStat) (env : CycleEnv)
    (h : q.length ≤ recvCap) : (sendRecvICMP w q env).recv.length ≤ recvCap := by
  unfold sendRecvICMP
  repeat' split
  all_goals first
    | exact h
    | (simp only [List.length_append, List.length_singleton]; omega)

theorem sendRecvICMP_blocked (w : Watcher) (q : List PacketStat) (env : CycleEnv)
    (h : (sendRecvICMP w q env).out = Outcome.blocked) : ¬ q.length < recvCap := by
  unfold sendRecvICMP at h
  repeat' split at h
  all_goals simp_all

theorem sendRecvICMP_enqueue (w : Watcher) (q : List PacketStat) (env : CycleEnv)
    (ps : PacketStat) (h : Effect.enqueue ps ∈ (sendRecvICMP w q env).effects) :
    q.length < recvCap ∧ (sendRecvICMP w q env).recv = q ++ [ps]
      ∧ (sendRecvICMP w q env).out = Outcome.returned none := by
  unfold sendRecvICMP at h ⊢
  repeat' split
  all_goals simp_all

theorem loopStep_recv_le (s : LoopRes) (e : Event) (h : s.recv.length ≤ recvCap) :
    (loopStep s e).recv.length ≤ recvCap := by
  cases e with
  | stopCalled =>
    rw [loopStep_stopCalled]
    split <;> exact h
  | done =>
    rw [loopStep_done]
    split <;> exact h
  | timeout => exact h
  | interval env =>
    have := sendRecvICMP_recv_le s.w s.recv env h
    rw [loopStep_interval]
    split <;> exact this
  | recv =>
    rw [loopStep_recv]
    split
    · exact h
    · rename_i msg rest hq
      rw [hq] at h
      simp only [List.length_cons] at h ⊢
      omega

theorem loopStep_keeps (a b : Int) (s : LoopRes) (e : Event)
    (h : s.w.id = a ∧ s.w.sequence = b ∧ ∀ x ∈ s.effects, Effect.tagged a b x) :
    (loopStep s e).w.id = a ∧ (loopStep s e).w.sequence = b
      ∧ ∀ x ∈ (loopStep s e).effects, Effect.tagged a b x := by
  obtain ⟨hid, hseq, heff⟩ := h
  have hpure : ∀ x : Effect, x.ownedByLoop = true → Effect.tagged a b x := by
    intro x hx m hm
    rw [hm] at hx
    simp [Effect.ownedByLoop] at hx
  cases e with
  | stopCalled =>
    have hS := Stop_id_sequence s.w
    have hE := Stop_effects s.w
    have hall : ∀ x ∈ s.effects ++ (Stop s.w).effects, Effect.tagged a b x := by
      intro x hx
      rcases List.mem_append.mp hx with hx | hx
      · exact heff x hx
      · rw [hE x hx]
        exact hpure _ rfl
    rw [loopStep_stopCalled]
    split
    · exact ⟨by rw [hS.1, hid], by rw [hS.2, hseq], hall⟩
    · exact ⟨by rw [hS.1, hid], by rw [hS.2, hseq], hall⟩
  | done =>
    rw [loopStep_done]
    split
    · refine ⟨hid, hseq, ?_⟩
      intro x hx
      rcases List.mem_append.mp hx with hx | hx
      · exact heff x hx
      · apply hpure
        simp at hx
        rcases hx with hx | hx <;> simp [hx, Effect.ownedByLoop]
    · exact ⟨hid, hseq, heff⟩
  | timeout =>
    rw [loopStep_timeout]
    refine ⟨hid, hseq, ?_⟩
    intro x hx
    rcases List.mem_append.mp hx with hx | hx
    · exact heff x hx
    · simp at hx
      rw [hx]
      exact hpure _ rfl
  | interval env =>
    have hw := sendRecvICMP_w s.w s.recv env
    have hcyc : ∀ x ∈ (sendRecvICMP s.w s.recv env).effects, Effect.tagged a b x := by
      intro x hx m hm
      rw [hm] at hx
      obtain ⟨data, hd⟩ := sendRecvICMP_m_body s.w _ m (sendRecvICMP_marshal s.w s.recv env m hx)
      exact ⟨data, by rw [hd, hid, hseq]⟩
    have hall : ∀ x ∈ s.effects ++ (sendRecvICMP s.w s.recv env).effects,
        Effect.tagged a b x := by
      intro x hx
      rcases List.mem_append.mp hx with hx | hx
      · exact heff x hx
      · exact hcyc x hx
    rw [loopStep_interval]
    split
    · refine ⟨by rw [hw, hid], by rw [hw, hseq], ?_⟩
      intro x hx
      rcases List.mem_append.mp hx with hx | hx
      · exact hall x hx
      · simp at hx
        rw [hx]
        exact hpure _ rfl
    · exact ⟨by rw [hw, hid], by rw [hw, hseq], hall⟩
    · refine ⟨by rw [hw, hid], by rw [hw, hseq], ?_⟩
      intro x hx
      rcases List.mem_append.mp hx with hx | hx
      · exact hall x hx
      · apply hpure
        simp at hx
        rcases hx with hx | hx <;> simp [hx, Effect.ownedByLoop]
    · exact ⟨by rw [hw, hid], by rw [hw, hseq], hall⟩
  | recv =>
    rw [loopStep_recv]
    split
    · exact ⟨hid, hseq, heff⟩
    · refine ⟨hid, hseq, ?_⟩
      intro x hx
      rcases List.mem_append.mp hx with hx | hx
      · exact heff x hx
      · simp at hx
        rw [hx]
        exact hpure _ rfl

theorem run_keeps (w : Watcher) (events : List Event) :
    (run w events).w.id = w.id ∧ (run w events).w.sequence = w.sequence
      ∧ ∀ x ∈ (run w events).effects, Effect.tagged w.id w.sequence x := by
  apply run_induct
    (fun s => s.w.id = w.id ∧ s.w.sequence = w.sequence
      ∧ ∀ x ∈ s.effects, Effect.tagged w.id w.sequence x)
    (loopStep_keeps w.id w.sequence) w
  · exact ⟨rfl, rfl, by simp⟩
  · refine ⟨rfl, rfl, ?_⟩
    intro x hx m hm
    rw [hm] at hx
    simp at hx
  · refine ⟨rfl, rfl, ?_⟩
    intro x hx m hm
    rw [hm] at hx
    simp at hx

theorem listen_keeps (w : Watcher) (answer : Option GoError) :
    (listen w answer).w.id = w.id ∧ (listen w answer).w.sequence = w.sequence
      ∧ ∀ x ∈ (listen w answer).effects, x.ownedByLoop = true := by
  have hS := Stop_id_sequence w
  have hE := Stop_effects w
  have hall : ∀ x ∈ Effect.listenPacket
      (if w.ipv4 then ipv4Proto w.protocol else ipv6Proto w.protocol) w.Source
        :: (Stop w).effects, x.ownedByLoop = true := by
    intro x hx
    rcases List.mem_cons.mp hx with hx | hx
    · rw [hx]; rfl
    · rw [hE x hx]; rfl
  unfold listen
  simp only []
  generalize (if w.ipv4 = true then ipv4Proto w.protocol else ipv6Proto w.protocol) = net
    at hall ⊢
  cases answer with
  | none =>
    refine ⟨rfl, rfl, ?_⟩
    intro x hx
    simp at hx
    rw [hx]
    rfl
  | some err =>
    simp only []
    split
    · exact ⟨hS.1, hS.2, hall⟩
    · exact ⟨hS.1, hS.2, hall⟩

theorem tagged_of_not_marshal (a b : Int) (x : Effect) (h : ∀ m, x ≠ Effect.marshal m) :
    Effect.tagged a b x := by
  intro m hm
  exact absurd hm (h m)

theorem tagged_of_owned (a b : Int) (x : Effect) (h : x.ownedByLoop = true) :
    Effect.tagged a b x := by
  apply tagged_of_not_marshal
  intro m hm
  rw [hm] at h
  simp [Effect.ownedByLoop] at h

theorem loopStep_id_sequence (s : LoopRes) (e : Event) :
    (loopStep s e).w.id = s.w.id ∧ (loopStep s e).w.sequence = s.w.sequence := by
  cases e with
  | stopCalled =>
    have hS := Stop_id_sequence s.w
    rw [loopStep_stopCalled]
    split <;> exact hS
  | done =>
    rw [loopStep_done]
    split <;> exact ⟨rfl, rfl⟩
  | timeout => exact ⟨rfl, rfl⟩
  | interval env =>
    have hw := sendRecvICMP_w s.w s.recv env
    rw [loopStep_interval]
    split <;> exact ⟨by rw [hw], by rw [hw]⟩
  | recv =>
    rw [loopStep_recv]
    split <;> exact ⟨rfl, rfl⟩

theorem loopStep_effects (Q : Effect → Prop) (hown : ∀ x, x.ownedByLoop = true → Q x)
    (hcyc : ∀ w q env, ∀ x ∈ (sendRecvICMP w q env).effects, Q x)
    (s : LoopRes) (e : Event) (h : ∀ x ∈ s.effects, Q x) :
    ∀ x ∈ (loopStep s e).effects, Q x := by
  cases e with
  | stopCalled =>
    have hE := Stop_effects s.w
    have hall : ∀ x ∈ s.effects ++ (Stop s.w).effects, Q x := by
      intro x hx
      rcases List.mem_append.mp hx with hx | hx
      · exact h x hx
      · rw [hE x hx]
        exact hown _ rfl
    rw [loopStep_stopCalled]
    split <;> exact hall
  | done =>
    rw [loopStep_done]
    split
    · intro x hx
      rcases List.mem_append.mp hx with hx | hx
      · exact h x hx
      · apply hown
        simp at hx
        rcases hx with hx | hx <;> simp [hx, Effect.ownedByLoop]
    · exact h
  | timeout =>
    rw [loopStep_timeout]
    intro x hx
    rcases List.mem_append.mp hx with hx | hx
    · exact h x hx
    · simp at hx
      rw [hx]
      exact hown _ rfl
  | interval env =>
    have hall : ∀ x ∈ s.effects ++ (sendRecvICMP s.w s.recv env).effects, Q x := by
      intro x hx
      rcases List.mem_append.mp hx with hx | hx
      · exact h x hx
      · exact hcyc _ _ _ x hx
    rw [loopStep_interval]
    split
    · intro x hx
      rcases List.mem_append.mp hx with hx | hx
      · exact hall x hx
      · simp at hx
        rw [hx]
        exact hown _ rfl
    · exact hall
    · intro x hx
      rcases List.mem_append.mp hx with hx | hx
      · exact hall x hx
      · apply hown
        simp at hx
        rcases hx with hx | hx <;> simp [hx, Effect.ownedByLoop]
    · exact hall
  | recv =>
    rw [loopStep_recv]
    split
    · exact h
    · intro x hx
      rcases List.mem_append.mp hx with hx | hx
      · exact h x hx
      · simp at hx
        rw [hx]
        exact hown _ rfl

theorem run_effects (Q : Effect → Prop) (hown : ∀ x, x.ownedByLoop = true → Q x)
    (hcyc : ∀ w q env, ∀ x ∈ (sendRecvICMP w q env).effects, Q x)
    (w : Watcher) (events : List Event) : ∀ x ∈ (run w events).effects, Q x := by
  apply run_induct (fun s => ∀ x ∈ s.effects, Q x) (loopStep_effects Q hown hcyc) w
  · simp
  · intro x hx
    simp at hx
    rw [hx]
    exact hown _ rfl
  · intro x hx
    simp at hx
    rcases hx with hx | hx <;> (rw [hx]; exact hown _ rfl)

theorem Run_keeps (w : Watcher) (env : RunEnv) :
    (Run w env).w.id = w.id ∧ (Run w env).w.sequence = w.sequence
      ∧ ∀ x ∈ (Run w env).effects, Effect.tagged w.id w.sequence x := by
  have h1 : ∀ r1 : Res, r1 = (if w.ipaddr = none then Resolve w env.lookup
        else { w := w, effects := [], out := Outcome.returned none }) →
      r1.w.id = w.id ∧ r1.w.sequence = w.sequence
        ∧ ∀ x ∈ r1.effects, Effect.tagged w.id w.sequence x := by
    intro r1 hr1
    rw [hr1]
    split
    · have hR := Resolve_id_sequence w env.lookup
      refine ⟨hR.1, hR.2, ?_⟩
      intro x hx
      rw [Resolve_effects w env.lookup x hx]
      exact tagged_of_not_marshal _ _ _ (by simp)
    · exact ⟨rfl, rfl, by simp⟩
  unfold Run
  simp only []
  generalize (if w.ipaddr = none then Resolve w env.lookup
        else { w := w, effects := [], out := Outcome.returned none }) = r1 at h1
  obtain ⟨hid1, hseq1, heff1⟩ := h1 r1 rfl
  have hL := listen_keeps r1.w env.listen
  have hR := run_keeps (listen r1.w env.listen).w env.events
  have h12 : ∀ x ∈ r1.effects ++ (listen r1.w env.listen).effects,
      Effect.tagged w.id w.sequence x := by
    intro x hx
    rcases List.mem_append.mp hx with hx | hx
    · exact heff1 x hx
    · exact tagged_of_owned _ _ _ (hL.2.2 x hx)
  split
  · split
    · refine ⟨by rw [hR.1, hL.1, hid1], by rw [hR.2.1, hL.2.1, hseq1], ?_⟩
      intro x hx
      rcases List.mem_append.mp hx with hx | hx
      · exact h12 x hx
      · have := hR.2.2 x hx
        rw [hL.1, hL.2.1, hid1, hseq1] at this
        exact this
    · exact ⟨by rw [hL.1, hid1], by rw [hL.2.1, hseq1], h12⟩
  · exact ⟨hid1, hseq1, heff1⟩

theorem exec_keeps (w : Watcher) (op : Op) :
    (Op.exec w op).1.id = w.id ∧ (Op.exec w op).1.sequence = w.sequence
      ∧ ∀ x ∈ (Op.exec w op).2, Effect.tagged w.id w.sequence x := by
  cases op with
  | SetSource source => exact ⟨rfl, rfl, by simp [Op.exec]⟩
  | SetTimeout timeout => exact ⟨rfl, rfl, by simp [Op.exec]⟩
  | SetReadDeadline deadline => exact ⟨rfl, rfl, by simp [Op.exec]⟩
  | SetInterval interval => exact ⟨rfl, rfl, by simp [Op.exec]⟩
  | SetTTL ttl => exact ⟨rfl, rfl, by simp [Op.exec]⟩
  | SetSize size => exact ⟨rfl, rfl, by simp [Op.exec]⟩
  | SetPrivileged privileged =>
    cases privileged
    · exact ⟨rfl, rfl, by simp [Op.exec]⟩
    · exact ⟨rfl, rfl, by simp [Op.exec]⟩
  | Resolve lookup =>
    have hR := Resolve_id_sequence w lookup
    refine ⟨hR.1, hR.2, ?_⟩
    intro x hx
    rw [Resolve_effects w lookup x hx]
    exact tagged_of_not_marshal _ _ _ (by simp)
  | Stop =>
    have hS := Stop_id_sequence w
    refine ⟨hS.1, hS.2, ?_⟩
    intro x hx
    rw [Stop_effects w x hx]
    exact tagged_of_owned _ _ _ rfl
  | listen answer =>
    have hL := listen_keeps w answer
    exact ⟨hL.1, hL.2.1, fun x hx => tagged_of_owned _ _ _ (hL.2.2 x hx)⟩
  | sendRecvICMP recv env =>
    have hw := sendRecvICMP_w w recv env
    refine ⟨by simp [Op.exec, hw], by simp [Op.exec, hw], ?_⟩
    intro x hx m hm
    rw [hm] at hx
    obtain ⟨data, hd⟩ := sendRecvICMP_m_body w _ m (sendRecvICMP_marshal w recv env m hx)
    exact ⟨data, by rw [hd]⟩
  | run events => exact run_keeps w events
  | Run env => exact Run_keeps w env

theorem lifetime_keeps (ops : List Op) : ∀ w : Watcher,
    (lifetime w ops).1.id = w.id ∧ (lifetime w ops).1.sequence = w.sequence
      ∧ ∀ x ∈ (lifetime w ops).2, Effect.tagged w.id w.sequence x := by
  induction ops with
  | nil => intro w; exact ⟨rfl, rfl, by simp [lifetime]⟩
  | cons op ops ih =>
    intro w
    have hE := exec_keeps w op
    have hI := ih (Op.exec w op).1
    refine ⟨by rw [lifetime, hI.1, hE.1], by rw [lifetime, hI.2.1, hE.2.1], ?_⟩
    intro x hx
    rw [lifetime] at hx
    rcases List.mem_append.mp hx with hx | hx
    · exact hE.2.2 x hx
    · have := hI.2.2 x hx
      rw [hE.1, hE.2.1] at this
      exact this

theorem sendRecvICMP_echoReply (w : Watcher) (q : List PacketStat) (env : CycleEnv)
    (rm : Message)
    (h : Effect.parseMessage ProtocolICMP (some rm) ∈ (sendRecvICMP w q env).effects)
    (hT : rm.Type_ = ICMPTypeEchoReply) (hq : q.length < recvCap) :
    (sendRecvICMP w q env).out = Outcome.returned none
    ∧ (sendRecvICMP w q env).recv = q ++ [{ Message := rm, Duration := env.duration }] := by
  unfold sendRecvICMP at h ⊢
  repeat' split
  all_goals simp_all

theorem Resolve_failed_w (w : Watcher) (lookup : GoError ⊕ IPAddr) (e : GoError)
    (h : (Resolve w lookup).out = Outcome.returned (some e)) : (Resolve w lookup).w = w := by
  unfold Resolve at h ⊢
  repeat' split
  all_goals simp_all

theorem loopStep_interval_blocked (s : LoopRes) (env : CycleEnv)
    (h : (loopStep s (Event.interval env)).out = Outcome.blocked) :
    (sendRecvICMP s.w s.recv env).out = Outcome.blocked := by
  rw [loopStep_interval] at h
  split at h
  · simp at h
  · simp at h
  · simp at h
  · exact h

theorem owned_not_resolve (x : Effect) (h : x.ownedByLoop = true) : x.isResolve = false := by
  cases x <;> simp_all [Effect.ownedByLoop, Effect.isResolve]

theorem replicate_singleton_flatten (n x : Nat) :
    (List.replicate n [x]).flatten = List.replicate n x := by
  induction n with
  | zero => rfl
  | succ k ih => simp [List.replicate_succ, ih]

theorem intOfUint_small (u : Nat) (h : u < 2 ^ 63) : intOfUint u = (u : Int) := by
  have hmod : u % 2 ^ 64 = u := Nat.mod_eq_of_lt (by omega)
  unfold intOfUint
  rw [hmod, if_pos h]

theorem intOfUint_large (u : Nat) (h : ¬ u < 2 ^ 63) (h64 : u < 2 ^ 64) :
    intOfUint u = (u : Int) - 2 ^ 64 := by
  have hmod : u % 2 ^ 64 = u := Nat.mod_eq_of_lt h64
  unfold intOfUint
  rw [hmod, if_neg h]

theorem sendRecvICMP_m_eq (w : Watcher) (hSize : w.Size < 2 ^ 64) (memory : Nat) :
    sendRecvICMP_m w memory
      = if w.Size = 0 ∨ (w.Size ≤ maxAlloc ∧ w.Size ≤ memory) then
          some { Type_ := ICMPTypeEcho, Code := 0,
                 Body := MessageBody.echo w.id w.sequence (List.replicate w.Size 97) }
        else none := by
  by_cases h0 : w.Size = 0
  · rw [if_pos (Or.inl h0)]
    have hi : intOfUint w.Size = 0 := by
      rw [intOfUint_small w.Size (by omega), h0]
      rfl
    simp only [sendRecvICMP_m, bytes_Repeat, hi, if_true]
    rw [h0]
    rfl
  · by_cases hlt : w.Size < 2 ^ 63
    · have hi : intOfUint w.Size = (w.Size : Int) := intOfUint_small w.Size hlt
      have hne : ¬ ((w.Size : Int) = 0) := by omega
      have hnn : ¬ ((w.Size : Int) < 0) := by omega
      have hmi : ¬ (maxInt < 1 * w.Size) := by
        simp only [maxInt]
        omega
      simp only [sendRecvICMP_m, bytes_Repeat, hi, if_neg hne, if_neg hnn, Int.toNat_ofNat,
        List.length_singleton, if_neg hmi, replicate_singleton_flatten]
      by_cases ha : maxAlloc < 1 * w.Size
      · rw [if_pos ha, if_neg]
        intro hc
        rcases hc with hc | hc
        · exact h0 hc
        · omega
      · rw [if_neg ha]
        by_cases hm : memory < 1 * w.Size
        · rw [if_pos hm, if_neg]
          intro hc
          rcases hc with hc | hc
          · exact h0 hc
          · omega
        · rw [if_neg hm, if_pos]
          right
          omega
    · have hi : intOfUint w.Size = (w.Size : Int) - 2 ^ 64 := intOfUint_large w.Size hlt hSize
      have hne : ¬ ((w.Size : Int) - 2 ^ 64 = 0) := by omega
      have hneg : (w.Size : Int) - 2 ^ 64 < 0 := by omega
      simp only [sendRecvICMP_m, bytes_Repeat, hi, if_neg hne, if_pos hneg]
      rw [if_neg]
      intro hc
      rcases hc with hc | hc
      · exact h0 hc
      · have := hc.1
        simp only [maxAlloc] at this
        omega

theorem sendRecvICMP_first_effect (w : Watcher) (q : List PacketStat) (env : CycleEnv)
    (dst : Addr) (m : Message) (hd : sendRecvICMP_dst w = some dst)
    (hm : sendRecvICMP_m w env.memory = some m) :
    ∃ rest, (sendRecvICMP w q env).effects = Effect.marshal m :: rest
      ∧ ∀ m2, Effect.marshal m2 ∉ rest := by
  unfold sendRecvICMP
  simp only [hd, hm]
  repeat' split
  all_goals exact ⟨_, rfl, by simp⟩

theorem sendRecvICMP_writes (w : Watcher) (q : List PacketStat) (env : CycleEnv)
    (dst : Addr) (m : Message) (b : List Nat) (hd : sendRecvICMP_dst w = some dst)
    (hm : sendRecvICMP_m w env.memory = some m) (hb : env.marshal = Sum.inr b) :
    Effect.writeTo b dst ∈ (sendRecvICMP w q env).effects := by
  unfold sendRecvICMP
  simp only [hd, hm, hb]
  repeat' split
  all_goals simp

theorem sendRecvICMP_faults (w : Watcher) (q : List PacketStat) (env : CycleEnv)
    (h : sendRecvICMP_dst w = none ∨ sendRecvICMP_m w env.memory = none) :
    (sendRecvICMP w q env).effects = [] ∧ (sendRecvICMP w q env).out = Outcome.panicked := by
  unfold sendRecvICMP
  rcases h with h | h
  · simp only [h]
    trivial
  · cases hd : sendRecvICMP_dst w with
    | none => exact ⟨rfl, rfl⟩
    | some dst =>
      simp only [h]
      trivial

/-! ## Lifecycle control: `Stop` -/

/-- C1: `Stop` is idempotent on the stop signal. For every Watcher whose signal
is open or already closed, `Stop` returns without a fault and leaves the
signal closed and every other field as it was; the local `open` is true
exactly when the signal was still open, so the close is performed once on an
open signal and not at all on a closed one; and `n + 1` calls of `Stop` in a
row end in the same state, with the same single close, as one call. -/
theorem Stop_idempotent (w : Watcher) (h : w.done = Chan.opened ∨ w.done = Chan.closed) :
    (Stop w).out = Outcome.returned none
    ∧ (Stop w).w = { w with done := Chan.closed }
    ∧ (Stop_open w = true ↔ w.done = Chan.opened)
    ∧ (w.done = Chan.opened → (Stop w).effects = [Effect.closeDone])
    ∧ (w.done = Chan.closed → (Stop w).effects = [] ∧ (Stop w).w = w)
    ∧ ∀ n, (StopTimes (n + 1) w).w = (Stop w).w
        ∧ (StopTimes (n + 1) w).out = Outcome.returned none
        ∧ (StopTimes (n + 1) w).effects = (Stop w).effects := by
  have hnil : w.done ≠ Chan.nil := by
    rcases h with h | h <;> simp [h]
  have hS := Stop_w w hnil
  refine ⟨by rw [hS], by rw [hS], ?_, ?_, ?_, ?_⟩
  · rcases h with h | h <;> simp [Stop_open, h]
  · intro ho
    rw [hS]
    simp [ho]
  · intro hc
    rw [hS]
    refine ⟨by simp [hc], ?_⟩
    cases w
    simp_all
  · intro n
    induction n with
    | zero =>
      simp only [StopTimes, List.nil_append]
      exact ⟨trivial, by rw [hS], trivial⟩
    | succ k ih =>
      obtain ⟨ihw, iho, ihe⟩ := ih
      have hclosed : (StopTimes (k + 1) w).w.done ≠ Chan.nil := by
        rw [ihw, hS]
        simp
      have hS2 := Stop_w (StopTimes (k + 1) w).w hclosed
      have hd : (StopTimes (k + 1) w).w.done = Chan.closed := by
        rw [ihw, hS]
      have hstep : StopTimes (k + 1 + 1) w
          = { w := (Stop (StopTimes (k + 1) w).w).w,
              effects := (StopTimes (k + 1) w).effects ++ (Stop (StopTimes (k + 1) w).w).effects,
              out := (Stop (StopTimes (k + 1) w).w).out } := by
        conv => lhs; unfold StopTimes
        simp only [iho]
      rw [hstep, hS2]
      simp only [hd]
      refine ⟨?_, trivial, ?_⟩
      · rw [ihw, hS]
      · simp [ihe]

/-- The C1 theorem applied to a fresh Watcher, whose signal is open. -/
theorem Stop_idempotent_witness :
    (Stop (New "example.org" 7)).out = Outcome.returned none
    ∧ (Stop (New "example.org" 7)).w = { New "example.org" 7 with done := Chan.closed }
    ∧ (StopTimes 3 (New "example.org" 7)).effects = [Effect.closeDone] :=
  have h := Stop_idempotent (New "example.org" 7) (Or.inl rfl)
  ⟨h.1, h.2.1, by rw [(h.2.2.2.2.2 2).2.2]; exact h.2.2.2.1 rfl⟩

/-! ## The constructor -/

/-- C8: for every address string the Watcher returned by `New` has the
documented defaults: interval one second, timeout the largest duration
(`2 ^ 63 - 1` nanoseconds, strictly positive), packet size 0, TTL 64, source
address "0.0.0.0", unprivileged mode (protocol "udp", what
`SetPrivileged(false)` sets), no resolved address, an open stop signal, and
the given address. -/
theorem New_defaults (addr : String) (rnd : Int) :
    (New addr rnd).Interval = time_Second ∧ time_Second = 1000000000
    ∧ (New addr rnd).Timeout = math_MaxInt64 ∧ math_MaxInt64 = 2 ^ 63 - 1
    ∧ 0 < (New addr rnd).Timeout
    ∧ (New addr rnd).Size = 0
    ∧ (New addr rnd).TTL = 64
    ∧ (New addr rnd).Source = "0.0.0.0"
    ∧ (New addr rnd).protocol = "udp"
    ∧ SetPrivileged (New addr rnd) false = New addr rnd
    ∧ (New addr rnd).ipaddr = none
    ∧ (New addr rnd).done = Chan.opened
    ∧ (New addr rnd).addr = addr := by
  have hpos : (0 : Int) < math_MaxInt64 := by decide
  refine ⟨rfl, rfl, rfl, by decide, hpos, rfl, rfl, rfl, rfl, ?_, rfl, rfl, rfl⟩
  simp [SetPrivileged, New]

/-! ## The echo request -/

/-- C4: for every Watcher (with `Size` a Go `uint`) the echo request built by
the probe cycle has type EchoRequest, code 0, echo ID the Watcher's `id`, echo
Seq its `sequence`, and exactly `Size` bytes of data, each of them the letter
a (97). The request is built exactly when `Size` is 0 or the runtime can
allocate `Size` bytes (at most `maxAlloc` and within `memory`); then, on a
Watcher with a destination, the cycle hands it to `Marshal` as its first
effect and in its only `Marshal` call, and writes the marshalled bytes to the
destination; nothing else is ever marshalled; and where the destination or
the payload cannot be made the cycle faults before any effect. The data has
no bytes for `Size = 0` and thirty-two for `Size = 32`. -/
theorem echo_request_fields (w : Watcher) (hSize : w.Size < 2 ^ 64) :
    (∀ memory m, sendRecvICMP_m w memory = some m →
        m.Type_ = ICMPTypeEcho ∧ m.Code = 0
        ∧ m.Body = MessageBody.echo w.id w.sequence (List.replicate w.Size 97))
    ∧ (∀ memory, (sendRecvICMP_m w memory).isSome = true
        ↔ (w.Size = 0 ∨ (w.Size ≤ maxAlloc ∧ w.Size ≤ memory)))
    ∧ (∀ q env dst m, sendRecvICMP_dst w = some dst →
        sendRecvICMP_m w env.memory = some m →
        ∃ rest, (sendRecvICMP w q env).effects = Effect.marshal m :: rest
          ∧ ∀ m2, Effect.marshal m2 ∉ rest)
    ∧ (∀ q env dst m b, sendRecvICMP_dst w = some dst →
        sendRecvICMP_m w env.memory = some m → env.marshal = Sum.inr b →
        Effect.writeTo b dst ∈ (sendRecvICMP w q env).effects)
    ∧ (∀ q env m, Effect.marshal m ∈ (sendRecvICMP w q env).effects →
        sendRecvICMP_m w env.memory = some m)
    ∧ (∀ q env, (sendRecvICMP_dst w = none ∨ sendRecvICMP_m w env.memory = none) →
        (sendRecvICMP w q env).effects = []
        ∧ (sendRecvICMP w q env).out = Outcome.panicked)
    ∧ (w.Size = 0 → ∀ memory, sendRecvICMP_m w memory
        = some { Type_ := ICMPTypeEcho, Code := 0, Body := MessageBody.echo w.id w.sequence [] })
    ∧ (w.Size = 32 → ∀ memory, 32 ≤ memory →
        ∃ data, data.length = 32 ∧ (∀ x ∈ data, x = 97) ∧ sendRecvICMP_m w memory
          = some { Type_ := ICMPTypeEcho, Code := 0,
                   Body := MessageBody.echo w.id w.sequence data }) := by
  have heq := sendRecvICMP_m_eq w hSize
  refine ⟨?_, ?_, ?_, ?_, ?_, ?_, ?_, ?_⟩
  · intro memory m hm
    rw [heq memory] at hm
    split at hm
    · cases hm
      exact ⟨rfl, rfl, rfl⟩
    · cases hm
  · intro memory
    rw [heq memory]
    split
    · rename_i hc
      simp [hc]
    · rename_i hc
      simp [hc]
  · intro q env dst m hd hm
    exact sendRecvICMP_first_effect w q env dst m hd hm
  · intro q env dst m b hd hm hb
    exact sendRecvICMP_writes w q env dst m b hd hm hb
  · intro q env m hm
    exact sendRecvICMP_marshal w q env m hm
  · intro q env h
    exact sendRecvICMP_faults w q env h
  · intro h0 memory
    rw [heq memory, if_pos (Or.inl h0), h0]
    rfl
  · intro h32 memory hmem
    refine ⟨List.replicate w.Size 97, by simp [h32], ?_, ?_⟩
    · intro x hx
      exact (List.mem_replicate.mp hx).2
    · rw [heq memory, if_pos]
      right
      rw [h32]
      exact ⟨by decide, hmem⟩

/-- The C4 theorem applied to a resolved Watcher with `Size = 32`: the probe
cycle first hands to `Marshal` the echo request with identifier 7, sequence 0
and thirty-two bytes a, and marshals nothing else. -/
theorem echo_request_fields_witness :
    ∃ rest, (sendRecvICMP (SetSize sampleWatcher 32) [] sampleEnv32).effects
        = Effect.marshal { Type_ := ICMPTypeEcho, Code := 0,
                           Body := MessageBody.echo 7 0 (List.replicate 32 97) } :: rest
      ∧ ∀ m2, Effect.marshal m2 ∉ rest :=
  (echo_request_fields (SetSize sampleWatcher 32) (by decide)).2.2.1 [] sampleEnv32
    (Addr.udpAddr sampleAddr.IP "")
    { Type_ := ICMPTypeEcho, Code := 0, Body := MessageBody.echo 7 0 (List.replicate 32 97) }
    (by decide) (by decide)

/-! ## The scheduler loop and per-cycle errors -/

/-- C2: per-cycle errors never abort the scheduler loop. For every schedule,
`run` returns only in the iteration that takes the stop signal, which was
closed by then, and it returns nil; taking the closed stop signal does make it
return nil; and an interval tick whose probe cycle returns an error `e` adds
to the log the cycle's own effects, none of them a callback, followed by
exactly one `OnError(e)`, so no `OnRecv`, leaves the queue and the Watcher
as they were, and leaves the loop running. -/
theorem run_errors_never_abort (w : Watcher) (events : List Event) :
    (∀ err, (run w events).out = Outcome.returned err →
        err = none ∧ ∃ pre post, events = pre ++ Event.done :: post
          ∧ (run w pre).out = Outcome.running ∧ (run w pre).w.done = Chan.closed
          ∧ run w events = loopStep (run w pre) Event.done)
    ∧ ((run w events).out = Outcome.running → (run w events).w.done = Chan.closed →
        (run w (events ++ [Event.done])).out = Outcome.returned none)
    ∧ (∀ env e, (run w events).out = Outcome.running →
        (sendRecvICMP (run w events).w (run w events).recv env).out
          = Outcome.returned (some e) →
        (run w (events ++ [Event.interval env])).out = Outcome.running
        ∧ (run w (events ++ [Event.interval env])).effects
            = (run w events).effects
              ++ (sendRecvICMP (run w events).w (run w events).recv env).effects
              ++ [Effect.onError e]
        ∧ ((sendRecvICMP (run w events).w (run w events).recv env).effects
              ++ [Effect.onError e]).filter Effect.isCallback = [Effect.onError e]
        ∧ (run w (events ++ [Event.interval env])).recv = (run w events).recv
        ∧ (run w (events ++ [Event.interval env])).w = (run w events).w) := by
  refine ⟨?_, ?_, ?_⟩
  · intro err h
    have hne : ¬ w.Timeout ≤ 0 ∧ ¬ w.Interval ≤ 0 := by
      unfold run at h
      constructor
      · intro ht
        simp [ht] at h
      · intro hi
        by_cases ht : w.Timeout ≤ 0
        · simp [ht] at h
        · simp [ht, hi] at h
    have hrun : ∀ evs, run w evs
        = loop { w := w, recv := [],
                 effects := [Effect.newTicker w.Timeout, Effect.newTicker w.Interval],
                 out := Outcome.running } evs := by
      intro evs
      unfold run
      rw [if_neg hne.1, if_neg hne.2]
    rw [hrun] at h
    obtain ⟨herr, pre, post, hev, hr, hd, heq⟩ := loop_returned events _ err rfl h
    exact ⟨herr, pre, post, hev, by rw [hrun]; exact hr, by rw [hrun]; exact hd,
      by rw [hrun, hrun]; exact heq⟩
  · intro hr hd
    rw [run_snoc w events _ hr]
    simp [loopStep, hd]
  · intro env e hr hc
    rw [run_snoc w events _ hr]
    have hnocb := sendRecvICMP_no_callback (run w events).w (run w events).recv env
    have hrecv := sendRecvICMP_error_recv (run w events).w (run w events).recv env
      (by rw [hc]; simp)
    have hw := sendRecvICMP_w (run w events).w (run w events).recv env
    refine ⟨?_, ?_, ?_, ?_, ?_⟩
    · simp [loopStep, hc]
    · simp [loopStep, hc]
    · rw [List.filter_append]
      have : List.filter Effect.isCallback
          (sendRecvICMP (run w events).w (run w events).recv env).effects = [] := by
        rw [List.filter_eq_nil_iff]
        intro x hx
        simp [(hnocb x hx).1]
      rw [this]
      simp [Effect.isCallback]
    · simp [loopStep, hc, hrecv.1]
    · simp [loopStep, hc, hw]

/-- The C2 theorem applied to a run in which the first probe cycle times
out: `OnError` is invoked once with the timeout and the loop goes on. -/
theorem run_errors_never_abort_witness :
    (run sampleWatcher [Event.interval timeoutEnv]).out = Outcome.running
    ∧ (run sampleWatcher [Event.interval timeoutEnv]).effects.filter Effect.isCallback
        = [Effect.onError (GoError.lib "i/o timeout")] :=
  have h := (run_errors_never_abort sampleWatcher []).2.2 timeoutEnv
    (GoError.lib "i/o timeout") (by decide) (by decide)
  ⟨h.1, by decide⟩

/-! ## Classifying the reply -/

/-- C3: the code on a full result queue. The Watcher has run five successful
probe cycles without the loop taking a result; the sixth reply is parsed and
is an echo reply, yet the cycle neither returns nil nor enqueues anything: it
is blocked in the send on `recv`, where an echo reply is meant to be
enqueued and nil returned. -/
theorem sendRecvICMP_blocks_on_full_queue :
    (run sampleWatcher (ticks 5)).out = Outcome.running
    ∧ (run sampleWatcher (ticks 5)).recv = fullQueue
    ∧ Effect.parseMessage ProtocolICMP (some (sampleReply 7))
        ∈ (sendRecvICMP sampleWatcher fullQueue (sampleEnv (sampleReply 7))).effects
    ∧ (sampleReply 7).Type_ = ICMPTypeEchoReply
    ∧ (sendRecvICMP sampleWatcher fullQueue (sampleEnv (sampleReply 7))).out
        ≠ Outcome.returned none
    ∧ (sendRecvICMP sampleWatcher fullQueue (sampleEnv (sampleReply 7))).recv = fullQueue := by
  decide

/-- Classification of the reply away from a full queue: for every successfully
parsed reply message `rm`, the probe cycle enqueues a PacketStat holding `rm`
and returns nil if and only if the type of `rm` is EchoReply and the queue
holds fewer than five results; for every other message type it returns the
non-nil error naming `rm` and enqueues nothing, whatever the queue holds. -/
theorem sendRecvICMP_classifies (w : Watcher) (q : List PacketStat) (env : CycleEnv)
    (rm : Message)
    (h : Effect.parseMessage ProtocolICMP (some rm) ∈ (sendRecvICMP w q env).effects) :
    (((sendRecvICMP w q env).out = Outcome.returned none
        ∧ (sendRecvICMP w q env).recv = q ++ [{ Message := rm, Duration := env.duration }])
      ↔ (rm.Type_ = ICMPTypeEchoReply ∧ q.length < recvCap))
    ∧ (rm.Type_ ≠ ICMPTypeEchoReply →
        (∃ peer, (sendRecvICMP w q env).out
            = Outcome.returned (some (GoError.wantEchoReply rm peer)))
        ∧ (sendRecvICMP w q env).recv = q
        ∧ ∀ ps, Effect.enqueue ps ∉ (sendRecvICMP w q env).effects) := by
  unfold sendRecvICMP at h ⊢
  repeat' split
  all_goals simp_all

/-- A Destination Unreachable reply: the cycle returns the error and the queue
stays empty. -/
theorem sendRecvICMP_classifies_unreachable :
    (∃ peer, (sendRecvICMP sampleWatcher [] (sampleEnv sampleUnreachable)).out
        = Outcome.returned (some (GoError.wantEchoReply sampleUnreachable peer)))
    ∧ (sendRecvICMP sampleWatcher [] (sampleEnv sampleUnreachable)).recv = [] :=
  have h := (sendRecvICMP_classifies sampleWatcher [] (sampleEnv sampleUnreachable)
    sampleUnreachable (by decide)).2 (by decide)
  ⟨h.1, h.2.1⟩

/-! ## The identifier of a reply -/

/-- C9, as stated, fails: the Watcher with identifier 7 receives an echo reply
carrying identifier 9, and the probe cycle returns nil and enqueues a
PacketStat for it. -/
theorem reply_identifier_counterexample :
    sampleWatcher.id = 7
    ∧ (sampleReply 9).Type_ = ICMPTypeEchoReply
    ∧ (sampleReply 9).Body = MessageBody.echo 9 0 []
    ∧ (sendRecvICMP sampleWatcher [] (sampleEnv (sampleReply 9))).out = Outcome.returned none
    ∧ (sendRecvICMP sampleWatcher [] (sampleEnv (sampleReply 9))).recv
        = [{ Message := sampleReply 9, Duration := 1500000000 }]
    ∧ (run sampleWatcher [Event.interval (sampleEnv (sampleReply 9)), Event.recv]).effects.filter
        Effect.isCallback = [Effect.onRecv { Message := sampleReply 9, Duration := 1500000000 }] := by
  decide

/-- C9, amended: the identifier is written into every echo request the probe
cycle builds, but a reply is not compared with it: for every parsed reply of
type EchoReply, whatever echo identifier `id` it carries, the probe cycle
(with room in the queue) returns nil and enqueues a PacketStat for it. -/
theorem reply_identifier_not_checked (w : Watcher) (q : List PacketStat) (env : CycleEnv)
    (code id seq : Int) (data : List Nat)
    (h : Effect.parseMessage ProtocolICMP
          (some { Type_ := ICMPTypeEchoReply, Code := code,
                  Body := MessageBody.echo id seq data })
        ∈ (sendRecvICMP w q env).effects)
    (hq : q.length < recvCap) :
    (sendRecvICMP w q env).out = Outcome.returned none
    ∧ (sendRecvICMP w q env).recv
        = q ++ [{ Message := { Type_ := ICMPTypeEchoReply, Code := code,
                               Body := MessageBody.echo id seq data },
                  Duration := env.duration }]
    ∧ ∀ m, Effect.marshal m ∈ (sendRecvICMP w q env).effects →
        ∃ payload, m.Body = MessageBody.echo w.id w.sequence payload := by
  have hE := sendRecvICMP_echoReply w q env _ h rfl hq
  refine ⟨hE.1, hE.2, ?_⟩
  · intro m hm
    obtain ⟨payload, hp⟩ := sendRecvICMP_m_body w _ m (sendRecvICMP_marshal w q env m hm)
    exact ⟨payload, by rw [hp]⟩

/-- The amended C9 theorem applied to the Watcher with identifier 7 and a
reply carrying identifier 9. -/
theorem reply_identifier_not_checked_witness :
    (sendRecvICMP sampleWatcher [] (sampleEnv (sampleReply 9))).out = Outcome.returned none :=
  (reply_identifier_not_checked sampleWatcher [] (sampleEnv (sampleReply 9)) 0 9 0 []
    (by decide) (by decide)).1

/-! ## The bounded result queue -/

/-- C6: the code on six interval ticks in a row. With probe cycles that take
longer than the interval the tick is ready again after every cycle, and the
select may take it each time instead of the queued result. After five such
cycles the loop is still running with five results queued, so the queue does
not hold fewer than five when the sixth successful cycle sends its result:
that send blocks, and with it the loop, the only receiver. -/
theorem run_six_ticks_blocks :
    (run sampleWatcher (ticks 5)).out = Outcome.running
    ∧ (run sampleWatcher (ticks 5)).recv.length = 5
    ∧ ¬ (run sampleWatcher (ticks 5)).recv.length < 5
    ∧ (sendRecvICMP (run sampleWatcher (ticks 5)).w (run sampleWatcher (ticks 5)).recv
        (sampleEnv (sampleReply 7))).out = Outcome.blocked
    ∧ (run sampleWatcher (ticks 6)).out = Outcome.blocked := by
  decide

/-- What does hold of the result queue: in every state the scheduler loop
reaches the queue holds at most five PacketStats; a probe cycle completes an
enqueue only when the queue holds fewer than five; and an interval tick taken
while the queue holds fewer than five results (in particular an empty queue,
as when the loop takes every queued result before the next tick) does not
block on the enqueue. -/
theorem recv_queue_bounded (w : Watcher) (events : List Event) :
    (run w events).recv.length ≤ recvCap
    ∧ (∀ env ps, Effect.enqueue ps
          ∈ (sendRecvICMP (run w events).w (run w events).recv env).effects →
        (run w events).recv.length < recvCap)
    ∧ (∀ env, (run w events).out = Outcome.running →
        (run w events).recv.length < recvCap →
        (run w (events ++ [Event.interval env])).out ≠ Outcome.blocked)
    ∧ (∀ env, (run w events).out = Outcome.running → (run w events).recv = [] →
        (run w (events ++ [Event.interval env])).out ≠ Outcome.blocked) := by
  have hblock : ∀ env, (run w events).out = Outcome.running →
      (run w events).recv.length < recvCap →
      (run w (events ++ [Event.interval env])).out ≠ Outcome.blocked := by
    intro env hr hlt hb
    rw [run_snoc w events _ hr] at hb
    exact sendRecvICMP_blocked _ _ _ (loopStep_interval_blocked _ _ hb) hlt
  refine ⟨?_, ?_, hblock, ?_⟩
  · apply run_induct (fun s => s.recv.length ≤ recvCap) loopStep_recv_le w
    · simp
    · simp
    · simp
  · intro env ps h
    exact (sendRecvICMP_enqueue _ _ _ ps h).1
  · intro env hr hq
    apply hblock env hr
    rw [hq]
    decide

/-- After four successful cycles in a row the fifth does not block. -/
theorem recv_queue_bounded_fifth :
    (run sampleWatcher (ticks 4 ++ [Event.interval (sampleEnv (sampleReply 7))])).out
      ≠ Outcome.blocked :=
  (recv_queue_bounded sampleWatcher (ticks 4)).2.2.1 (sampleEnv (sampleReply 7))
    (by decide) (by decide)

/-! ## Startup -/

/-- C7: startup aborts on a resolution failure. For every Watcher whose address
is unresolved, if `Resolve` fails with `e` then `Run` returns `e`, leaves the
Watcher as it was, and does nothing beyond what `Resolve` did (at most the one
lookup): no transport is opened, no ticker is created, no callback is
invoked. `Resolve` fails whenever the lookup fails, and on the empty
address it fails without a lookup, so `Run` then has no effect at all. When
the address is already resolved, `Run` performs no lookup. -/
theorem Run_aborts_on_resolve_failure (w : Watcher) (env : RunEnv) :
    (w.ipaddr = none → ∀ e, (Resolve w env.lookup).out = Outcome.returned (some e) →
        (Run w env).out = Outcome.returned (some e)
        ∧ (Run w env).w = w
        ∧ (Run w env).recv = []
        ∧ (Run w env).effects = (Resolve w env.lookup).effects
        ∧ ∀ x ∈ (Run w env).effects,
            x = Effect.resolveIPAddr w.network w.addr
            ∧ x.isCallback = false ∧ x.ownedByLoop = false)
    ∧ (∀ err, env.lookup = Sum.inl err →
        ∃ e, (Resolve w env.lookup).out = Outcome.returned (some e))
    ∧ (w.addr = "" → Resolve w env.lookup
        = { w := w, effects := [], out := Outcome.returned (some GoError.addrEmpty) })
    ∧ (w.ipaddr = none → w.addr = "" → Run w env
        = { w := w, recv := [], effects := [],
            out := Outcome.returned (some GoError.addrEmpty) })
    ∧ (w.ipaddr ≠ none → ∀ x ∈ (Run w env).effects, x.isResolve = false) := by
  have hempty : w.addr = "" → Resolve w env.lookup
      = { w := w, effects := [], out := Outcome.returned (some GoError.addrEmpty) } := by
    intro ha
    have : w.addr.utf8ByteSize = 0 := by rw [ha]; rfl
    unfold Resolve
    rw [if_pos this]
  have hfail : w.ipaddr = none → ∀ e,
      (Resolve w env.lookup).out = Outcome.returned (some e) →
      Run w env = { w := w, recv := [], effects := (Resolve w env.lookup).effects,
                    out := Outcome.returned (some e) } := by
    intro hip e he
    have hw := Resolve_failed_w w env.lookup e he
    unfold Run
    simp only [hip, if_true, he, hw]
  refine ⟨?_, ?_, hempty, ?_, ?_⟩
  · intro hip e he
    rw [hfail hip e he]
    refine ⟨rfl, rfl, rfl, rfl, ?_⟩
    intro x hx
    have := Resolve_effects w env.lookup x hx
    rw [this]
    exact ⟨rfl, rfl, rfl⟩
  · intro err hl
    rw [hl]
    unfold Resolve
    split
    · exact ⟨_, rfl⟩
    · exact ⟨_, rfl⟩
  · intro hip ha
    have he := hempty ha
    rw [hfail hip GoError.addrEmpty (by rw [he]), he]
  · intro hip x hx
    have hrun := run_effects (fun x => x.isResolve = false) owned_not_resolve
      (fun w q env x hx => (sendRecvICMP_no_callback w q env x hx).2.1)
    have hL := listen_keeps w env.listen
    unfold Run at hx
    simp only [if_neg hip] at hx
    split at hx
    · simp only [List.nil_append] at hx
      rcases List.mem_append.mp hx with hx | hx
      · exact owned_not_resolve x (hL.2.2 x hx)
      · exact hrun _ _ x hx
    · simp only [List.nil_append] at hx
      exact owned_not_resolve x (hL.2.2 x hx)

/-- The C7 theorem applied to an unresolved Watcher whose lookup fails: `Run`
returns the resolver's error after the single lookup. -/
theorem Run_aborts_on_resolve_failure_witness :
    (Run (New "no-such-host.invalid" 7)
        { lookup := Sum.inl (GoError.lib "no such host"), listen := none,
          events := [Event.interval timeoutEnv, Event.timeout] }).out
      = Outcome.returned (some (GoError.lib "no such host"))
    ∧ (Run (New "no-such-host.invalid" 7)
        { lookup := Sum.inl (GoError.lib "no such host"), listen := none,
          events := [Event.interval timeoutEnv, Event.timeout] }).effects
      = [Effect.resolveIPAddr "ip" "no-such-host.invalid"] :=
  have h := (Run_aborts_on_resolve_failure (New "no-such-host.invalid" 7)
    { lookup := Sum.inl (GoError.lib "no such host"), listen := none,
      events := [Event.interval timeoutEnv, Event.timeout] }).1 rfl
    (GoError.lib "no such host") (by decide)
  ⟨h.1, by rw [h.2.2.2.1]; decide⟩

/-! ## Identifier and sequence over a lifetime -/

/-- C5: the identifier is constant after construction. `New` assigns it the
drawn value; every single operation (each `Set*` mutator, `SetPrivileged`,
`Resolve`, `Stop`, `listen`, a probe cycle, `run`, `Run`, with any answers
of the outside world) and every iteration of the scheduler loop leaves `id`
as it was; so after any sequence of operations on a Watcher made by `New` the
field still holds the value `New` assigned. -/
theorem id_constant (addr : String) (rnd : Int) (ops : List Op) :
    (New addr rnd).id = rnd
    ∧ (∀ w op, (Op.exec w op).1.id = w.id)
    ∧ (∀ w q env, (sendRecvICMP w q env).w.id = w.id)
    ∧ (∀ s e, (loopStep s e).w.id = s.w.id)
    ∧ (∀ w events, (run w events).w.id = w.id)
    ∧ (lifetime (New addr rnd) ops).1.id = rnd :=
  ⟨rfl, fun w op => (exec_keeps w op).1,
    fun w q env => by rw [sendRecvICMP_w],
    fun s e => (loopStep_id_sequence s e).1,
    fun w events => (run_keeps w events).1,
    (lifetime_keeps ops (New addr rnd)).1⟩

/-- C10: the sequence counter is never advanced. `New` leaves it 0; every
single operation, every probe cycle (whatever the network answers, success or
failure) and every iteration of the scheduler loop leaves `sequence` as it
was; so over any sequence of operations on a Watcher made by `New` the field
stays 0 and every echo request handed to `Marshal` carries Seq 0 (and the
Watcher's identifier). -/
theorem sequence_never_advanced (addr : String) (rnd : Int) (ops : List Op) :
    (New addr rnd).sequence = 0
    ∧ (∀ w op, (Op.exec w op).1.sequence = w.sequence)
    ∧ (∀ w q env, (sendRecvICMP w q env).w.sequence = w.sequence)
    ∧ (∀ s e, (loopStep s e).w.sequence = s.w.sequence)
    ∧ (lifetime (New addr rnd) ops).1.sequence = 0
    ∧ ∀ m, Effect.marshal m ∈ (lifetime (New addr rnd) ops).2 →
        ∃ data, m.Body = MessageBody.echo rnd 0 data :=
  ⟨rfl, fun w op => (exec_keeps w op).2.1,
    fun w q env => by rw [sendRecvICMP_w],
    fun s e => (loopStep_id_sequence s e).2,
    (lifetime_keeps ops (New addr rnd)).2.1,
    fun m hm => (lifetime_keeps ops (New addr rnd)).2.2 _ hm m rfl⟩

/-- The C10 theorem applied to a lifetime with two probe cycles: the request
marshalled there carries Seq 0. -/
theorem sequence_never_advanced_witness :
    Effect.marshal { Type_ := ICMPTypeEcho, Code := 0, Body := MessageBody.echo 7 0 [97, 97] }
      ∈ (lifetime (New "example.org" 7) sampleLifetime).2
    ∧ ∃ data, MessageBody.echo 7 0 [97, 97] = MessageBody.echo 7 0 data :=
  ⟨by decide, (sequence_never_advanced "example.org" 7 sampleLifetime).2.2.2.2.2
    { Type_ := ICMPTypeEcho, Code := 0, Body := MessageBody.echo 7 0 [97, 97] } (by decide)⟩

end alive
